import Mathlib

/-!
# Verification of the acedia habit tracker (src/acedia.py)

A shallow embedding of the habit tracker's data model, pure engines
(streak, completion ratio, HH:MM parsing), reminder daemon, and the
interactive state machine, together with theorems settling the frozen
claims about the program.

Conventions of the embedding:
* Python dicts become association lists `List (String × α)`; Python dicts
  have unique keys, and the helpers below agree with dict semantics on
  key-unique lists (lookup finds the first binding, upsert replaces the
  first binding in place, erase drops all bindings of the key).
* Persistence and process-level side effects (`save_*`, `sys.exit`,
  notification dispatch, CSV export) become explicit effect values
  returned next to the new state.
* Machine integers do not occur; Python ints are `Int`/`Nat`.
* I/O that can raise (`json.load` on a malformed file) becomes
  `Except String`.
-/

namespace Acedia

/-! ## Association-list dictionaries -/

variable {κ : Type} [DecidableEq κ]

/-- First binding of key `k`, like Python `d.get(k)` / `d[k]`. -/
def dlookup (k : κ) : List (κ × α) → Option α
  | [] => none
  | (k', v) :: rest => if k' = k then some v else dlookup k rest

/-- Python `k in d`. -/
def dcontains (k : κ) (m : List (κ × α)) : Bool :=
  (dlookup k m).isSome

/-- Python `d[k] = v`: replace the first binding of `k` in place, or append
a new binding at the end (dict insertion order). -/
def dupsert (k : κ) (v : α) : List (κ × α) → List (κ × α)
  | [] => [(k, v)]
  | (k', v') :: rest =>
      if k' = k then (k, v) :: rest else (k', v') :: dupsert k v rest

/-- Python `del d[k]`: remove the binding(s) of `k`. -/
def derase (k : κ) (m : List (κ × α)) : List (κ × α) :=
  m.filter (fun kv => kv.1 ≠ k)

theorem dlookup_derase_self (k : κ) (m : List (κ × α)) :
    dlookup k (derase k m) = none := by
  induction m with
  | nil => rfl
  | cons kv rest ih =>
      by_cases h : kv.1 = k
      · simpa [derase, h] using ih
      · simpa [derase, dlookup, h] using ih

theorem dlookup_dupsert_self (k : κ) (v : α) (m : List (κ × α)) :
    dlookup k (dupsert k v m) = some v := by
  induction m with
  | nil => simp [dupsert, dlookup]
  | cons kv rest ih =>
      by_cases h : kv.1 = k
      · simp [dupsert, h, dlookup]
      · simpa [dupsert, h, dlookup] using ih

theorem dlookup_isSome_mem_keys {k : κ} {m : List (κ × α)}
    (h : (dlookup k m).isSome) : k ∈ m.map Prod.fst := by
  induction m with
  | nil => simp [dlookup] at h
  | cons kv rest ih =>
      by_cases hk : kv.1 = k
      · simp [hk]
      · simp only [dlookup, hk, if_false] at h
        simpa using Or.inr (ih h)

/-! ## Time-of-day parsing: `datetime.strptime(t, "%H:%M")`

CPython's `_strptime` compiles the format into the regex
`(?P<H>2[0-3]|[0-1]\d|\d)\:(?P<M>[0-5]\d|\d)` and raises `ValueError`
unless the regex matches and consumes the whole string.  Hour and minute
fields therefore accept one- or two-digit values (hour 0–23, minute 0–59);
non-zero-padded inputs such as "9:00" are accepted. -/

/-- Numeric value of a decimal digit character. -/
def digitVal (c : Char) : Nat := c.toNat - '0'.toNat

/-- Regex alternation `2[0-3]|[0-1]\d|\d` (greedy, as matched by CPython). -/
def parseHour : List Char → Option (Nat × List Char)
  | [] => none
  | [c0] => if c0.isDigit then some (digitVal c0, []) else none
  | c0 :: c1 :: rest =>
      if c0 = '2' ∧ '0' ≤ c1 ∧ c1 ≤ '3' then
        some (20 + digitVal c1, rest)
      else if ('0' ≤ c0 ∧ c0 ≤ '1') ∧ c1.isDigit then
        some (10 * digitVal c0 + digitVal c1, rest)
      else if c0.isDigit then
        some (digitVal c0, c1 :: rest)
      else none

/-- Regex alternation `[0-5]\d|\d` (greedy). -/
def parseMin : List Char → Option (Nat × List Char)
  | [] => none
  | [c0] => if c0.isDigit then some (digitVal c0, []) else none
  | c0 :: c1 :: rest =>
      if ('0' ≤ c0 ∧ c0 ≤ '5') ∧ c1.isDigit then
        some (10 * digitVal c0 + digitVal c1, rest)
      else if c0.isDigit then
        some (digitVal c0, c1 :: rest)
      else none

/-- `datetime.strptime(s, "%H:%M")`: `some (hour, minute)` when the parse
succeeds, `none` when `ValueError` is raised. -/
def parseHM (s : String) : Option (Nat × Nat) :=
  match parseHour s.data with
  | some (h, ':' :: rest) =>
      match parseMin rest with
      | some (m, []) => some (h, m)
      | _ => none
  | _ => none

example : parseHM "09:00" = some (9, 0) := by decide
example : parseHM "9:00" = some (9, 0) := by decide
example : parseHM "23:59" = some (23, 59) := by decide
example : parseHM "24:00" = none := by decide
example : parseHM "10:60" = none := by decide
example : parseHM "banana" = none := by decide
example : parseHM "" = none := by decide
example : parseHM "09:005" = none := by decide

/-! ## Python `str.strip()` -/

/-- Python whitespace for `str.strip()` with no argument (the
characters that can actually occur in the input buffers: the handlers
only ever append codes 32–126 and newline). -/
def pyIsSpace (c : Char) : Bool :=
  c = ' ' ∨ c = '\t' ∨ c = '\n' ∨ c = '\x0d' ∨ c = '\x0b' ∨ c = '\x0c'

/-- Python `s.strip()`: drop leading and trailing whitespace. -/
def pstrip (s : String) : String :=
  ⟨((s.data.dropWhile pyIsSpace).reverse.dropWhile pyIsSpace).reverse⟩

example : pstrip "  hello world " = "hello world" := by decide
example : pstrip "  " = "" := by decide

/-! ## Python string comparison

Python compares strings lexicographically on their code points. -/

/-- Strict lexicographic order on code-point sequences. -/
def strLtb : List Char → List Char → Bool
  | [], [] => false
  | [], _ :: _ => true
  | _ :: _, [] => false
  | a :: as, b :: bs =>
      if a < b then true else if b < a then false else strLtb as bs

/-- Python `a <= b` on strings. -/
def pyStrLe (a b : String) : Prop := strLtb b.data a.data = false

instance : DecidableRel pyStrLe :=
  fun a b => inferInstanceAs (Decidable (strLtb b.data a.data = false))

theorem strLtb_irrefl : ∀ l : List Char, strLtb l l = false := by
  intro l
  induction l with
  | nil => rfl
  | cons a as ih => simp [strLtb, lt_irrefl, ih]

theorem strLtb_trans : ∀ a b c : List Char,
    strLtb a b = true → strLtb b c = true → strLtb a c = true := by
  intro a
  induction a with
  | nil =>
      intro b c h1 h2
      cases b with
      | nil => simp [strLtb] at h1
      | cons bb bs =>
          cases c with
          | nil => simp [strLtb] at h2
          | cons cc cs => rfl
  | cons aa as ih =>
      intro b c h1 h2
      cases b with
      | nil => simp [strLtb] at h1
      | cons bb bs =>
          cases c with
          | nil => simp [strLtb] at h2
          | cons cc cs =>
              simp only [strLtb] at h1 h2 ⊢
              by_cases hab : aa < bb
              · by_cases hbc : bb < cc
                · simp [lt_trans hab hbc]
                · by_cases hcb : cc < bb
                  · simp [hbc, hcb] at h2
                  · have hbc' : bb = cc := le_antisymm (le_of_not_lt hcb)
                      (le_of_not_lt hbc)
                    subst hbc'
                    simp [hab]
              · by_cases hba : bb < aa
                · simp [hab, hba] at h1
                · have hab' : aa = bb := le_antisymm (le_of_not_lt hba)
                    (le_of_not_lt hab)
                  subst hab'
                  simp only [hab, if_neg hab, lt_irrefl, if_false] at h1
                  by_cases hac : aa < cc
                  · simp [hac]
                  · by_cases hca : cc < aa
                    · simp [hac, hca] at h2
                    · simp only [hac, if_neg hac, if_neg hca] at h2 ⊢
                      exact ih bs cs h1 h2

theorem strLtb_trichotomy : ∀ a b : List Char,
    strLtb a b = true ∨ a = b ∨ strLtb b a = true := by
  intro a
  induction a with
  | nil =>
      intro b
      cases b with
      | nil => exact Or.inr (Or.inl rfl)
      | cons bb bs => exact Or.inl rfl
  | cons aa as ih =>
      intro b
      cases b with
      | nil => exact Or.inr (Or.inr rfl)
      | cons bb bs =>
          rcases lt_trichotomy aa bb with h | h | h
          · exact Or.inl (by simp [strLtb, h])
          · subst h
            rcases ih bs with h2 | h2 | h2
            · exact Or.inl (by simp [strLtb, lt_irrefl, h2])
            · exact Or.inr (Or.inl (by rw [h2]))
            · exact Or.inr (Or.inr (by simp [strLtb, lt_irrefl, h2]))
          · exact Or.inr (Or.inr (by simp [strLtb, h]))

instance : IsTotal String pyStrLe := by
  constructor
  intro a b
  by_cases h1 : strLtb b.data a.data = false
  · exact Or.inl h1
  · by_cases h2 : strLtb a.data b.data = false
    · exact Or.inr h2
    · exfalso
      have t1 : strLtb b.data a.data = true := by
        cases hx : strLtb b.data a.data
        · exact absurd hx h1
        · rfl
      have t2 : strLtb a.data b.data = true := by
        cases hx : strLtb a.data b.data
        · exact absurd hx h2
        · rfl
      have := strLtb_trans _ _ _ t1 t2
      rw [strLtb_irrefl] at this
      exact Bool.false_ne_true this

instance : IsTrans String pyStrLe := by
  constructor
  intro a b c hab hbc
  unfold pyStrLe at *
  cases hx : strLtb c.data a.data
  · rfl
  · exfalso
    rcases strLtb_trichotomy b.data c.data with h | h | h
    · have hba := strLtb_trans _ _ _ h hx
      rw [hba] at hab
      exact absurd hab (by simp)
    · rw [← h] at hx
      rw [hx] at hab
      exact absurd hab (by simp)
    · rw [h] at hbc
      exact absurd hbc (by simp)

/-! ## Habit store documents -/

/-- One day of the habit log: habit name → done flag
(`log["YYYY-MM-DD"]`). -/
abbrev DayLog := List (String × Bool)

/-- The habit log: ISO date string → day log (`data["log"]`). -/
abbrev Log := List (String × DayLog)

/-- The habit document `{"habits": [...], "log": {...}}`. -/
structure Data where
  habits : List String
  log : Log
  deriving Repr, DecidableEq

/-- A calendar event `{"title": ..., "time": ..., "notes": ...}`. -/
structure Ev where
  title : String
  time : String
  notes : String
  deriving Repr, DecidableEq

/-- The events document: ISO date string → event list. -/
abbrev EMap := List (String × List Ev)

/-- A journal entry `{"text": ..., "modified": ...}`. -/
structure JEntry where
  text : String
  modified : String
  deriving Repr, DecidableEq

/-- The journal document: ISO date string → entry. -/
abbrev JMap := List (String × JEntry)

/-- `checked_today(log, name)` generalized over the date key:
`log.get(ds, {}).get(name, False)`. -/
def checkedOn (log : Log) (ds : String) (name : String) : Bool :=
  (dlookup name ((dlookup ds log).getD [])).getD false

/-! ## Reminder daemon (`reminder_daemon`)

One iteration of the `while True:` loop is a *tick*.  Per tick the
daemon reads the wall clock once and loads the schedule, the habit
document (only when a reminder actually fires) and the events document
fresh from disk; each load can raise, which the loop does **not** catch.
`fired` is the in-memory dedup set; a dispatched notification is recorded
with its dedup key. -/

/-- A dispatched notification: the dedup key it was recorded under, the
title and the body passed to `send_notification`. -/
structure Notif where
  nkey : String
  ntitle : String
  body : String
  deriving Repr, DecidableEq

/-- Everything one tick observes from the environment: the current
wall-clock minute, today's date, and the results of the three store
loads (`Except.error` = the load raised). -/
structure TickIn where
  now : String
  today : String
  schedLoad : Except String (List String)
  dataLoad : Except String Data
  eventsLoad : Except String EMap

/-- The notification sent for a firing reminder `t`: lists habits not
yet checked off today, or an "all done" message. -/
def mkRemNotif (tin : TickIn) (data : Data) (t : String) : Notif :=
  let unchecked := data.habits.filter
    (fun h => ¬ checkedOn data.log tin.today h)
  { nkey := tin.today ++ "-" ++ t,
    ntitle := "HABIT reminder (" ++ t ++ ")",
    body := if unchecked ≠ [] then
        "Pending: " ++ String.intercalate ", " unchecked
      else "All done ✓" }

/-- The notification sent for a firing event. -/
def mkEvNotif (tin : TickIn) (ev : Ev) : Notif :=
  { nkey := "ev-" ++ tin.today ++ "-" ++ ev.time ++ "-" ++ ev.title,
    ntitle := "Event: " ++ ev.title,
    body := ev.notes }

/-- The reminder `for t in load_schedule().get("reminders", [])` loop,
threading the fired set and the dispatched notifications.
`load_data()` is forced only when a reminder actually fires; if it
raises, the notifications already sent by earlier iterations stand
(each `send_notification` has already happened) and the exception
escapes with them. -/
def remLoop (tin : TickIn) (acc : List String × List Notif) :
    List String → (List String × List Notif) × Option String
  | [] => (acc, none)
  | t :: ts =>
      let key := tin.today ++ "-" ++ t
      if t = tin.now ∧ ¬ acc.1.contains key then
        match tin.dataLoad with
        | .error e => (acc, some e)
        | .ok data =>
            remLoop tin (acc.1 ++ [key], acc.2 ++ [mkRemNotif tin data t]) ts
      else remLoop tin acc ts

/-- The `for ev in load_events().get(today_str(), [])` loop (no load is
performed inside it, so it cannot raise). -/
def evLoop (tin : TickIn) (acc : List String × List Notif) :
    List Ev → List String × List Notif
  | [] => acc
  | ev :: evs =>
      let ekey := "ev-" ++ tin.today ++ "-" ++ ev.time ++ "-" ++ ev.title
      if ev.time = tin.now ∧ ¬ acc.1.contains ekey then
        evLoop tin (acc.1 ++ [ekey], acc.2 ++ [mkEvNotif tin ev]) evs
      else evLoop tin acc evs

/-- One tick of `reminder_daemon`: the new fired set, the notifications
this tick actually dispatched, and the uncaught exception when a load
raised.  Notifications are sent as the loops run, before any later load
can raise, so a failing `load_events()` does not undo the reminder
notifications already sent this tick. -/
def daemonTick (fired : List String) (tin : TickIn) :
    (List String × List Notif) × Option String :=
  match tin.schedLoad with
  | .error e => ((fired, []), some e)
  | .ok reminders =>
      match remLoop tin (fired, []) reminders with
      | (acc1, some e) => (acc1, some e)
      | (acc1, none) =>
          match tin.eventsLoad with
          | .error e => (acc1, some e)
          | .ok evmap =>
              (evLoop tin acc1 ((dlookup tin.today evmap).getD []), none)

/-- Run the daemon over a sequence of ticks.  An uncaught exception
kills the daemon thread: the crashing tick's partial dispatches stand
and no further tick runs.  Returns the final fired set and every
notification dispatched over the run, the crashing tick's included. -/
def runDaemon (fired : List String) : List TickIn → List String × List Notif
  | [] => (fired, [])
  | tin :: rest =>
      match daemonTick fired tin with
      | (acc, some _) => acc
      | ((fired', ns), none) =>
          let (f'', ns') := runDaemon fired' rest
          (f'', ns ++ ns')

/-! ### Daemon lemmas -/

theorem remLoop_append (tin : TickIn) (ts : List String) :
    ∀ f ns, ∃ new : List Notif,
      (remLoop tin (f, ns) ts).1.1 = f ++ new.map Notif.nkey ∧
      (remLoop tin (f, ns) ts).1.2 = ns ++ new ∧
      (f.Nodup → (remLoop tin (f, ns) ts).1.1.Nodup) := by
  induction ts with
  | nil =>
      intro f ns
      exact ⟨[], by simp [remLoop], by simp [remLoop],
        fun hf => by simpa [remLoop]⟩
  | cons t ts ih =>
      intro f ns
      by_cases hguard : t = tin.now ∧
          ¬ (f.contains (tin.today ++ "-" ++ t)) = true
      · cases hdata : tin.dataLoad with
        | error e =>
            refine ⟨[], ?_, ?_, ?_⟩ <;>
              simp only [remLoop, if_pos hguard, hdata]
            · simp
            · simp
            · intro hf
              simpa using hf
        | ok data =>
            obtain ⟨new', h1, h2, h3⟩ :=
              ih (f ++ [tin.today ++ "-" ++ t]) (ns ++ [mkRemNotif tin data t])
            refine ⟨mkRemNotif tin data t :: new', ?_, ?_, ?_⟩ <;>
              simp only [remLoop, if_pos hguard, hdata]
            · simpa [mkRemNotif] using h1
            · simpa using h2
            · intro hf
              apply h3
              have hnotmem : tin.today ++ "-" ++ t ∉ f := by
                simpa using hguard.2
              simp [List.nodup_append, hf, hnotmem]
      · obtain ⟨new', h1, h2, h3⟩ := ih f ns
        refine ⟨new', ?_, ?_, ?_⟩ <;> simp only [remLoop, if_neg hguard]
        · exact h1
        · exact h2
        · exact h3

theorem evLoop_append (tin : TickIn) (evs : List Ev) :
    ∀ f ns, ∃ new : List Notif,
      (evLoop tin (f, ns) evs).1 = f ++ new.map Notif.nkey ∧
      (evLoop tin (f, ns) evs).2 = ns ++ new ∧
      (f.Nodup → (evLoop tin (f, ns) evs).1.Nodup) := by
  induction evs with
  | nil => intro f ns; exact ⟨[], by simp [evLoop], by simp [evLoop], fun hf => by simpa [evLoop]⟩
  | cons ev evs ih =>
      intro f ns
      by_cases hguard : ev.time = tin.now ∧
          ¬ (f.contains ("ev-" ++ tin.today ++ "-" ++ ev.time ++ "-" ++ ev.title)) = true
      · obtain ⟨new', h1, h2, h3⟩ :=
          ih (f ++ ["ev-" ++ tin.today ++ "-" ++ ev.time ++ "-" ++ ev.title])
            (ns ++ [mkEvNotif tin ev])
        refine ⟨mkEvNotif tin ev :: new', ?_, ?_, ?_⟩
        · simp only [evLoop, if_pos hguard]
          simpa [mkEvNotif] using h1
        · simp only [evLoop, if_pos hguard]
          simpa using h2
        · intro hf
          simp only [evLoop, if_pos hguard]
          apply h3
          have hnotmem : "ev-" ++ tin.today ++ "-" ++ ev.time ++ "-" ++ ev.title ∉ f := by
            simpa using hguard.2
          simp [List.nodup_append, hf, hnotmem]
      · obtain ⟨new', h1, h2, h3⟩ := ih f ns
        refine ⟨new', ?_, ?_, ?_⟩ <;> simp only [evLoop, if_neg hguard]
        · exact h1
        · exact h2
        · exact h3

theorem daemonTick_spec (fired : List String) (tin : TickIn) :
    (daemonTick fired tin).1.1 =
      fired ++ ((daemonTick fired tin).1.2).map Notif.nkey ∧
    (fired.Nodup → (daemonTick fired tin).1.1.Nodup) := by
  unfold daemonTick
  cases hs : tin.schedLoad with
  | error e => simp
  | ok reminders =>
      dsimp only
      obtain ⟨new1, h11, h12, h13⟩ := remLoop_append tin reminders fired []
      cases hr : remLoop tin (fired, []) reminders with
      | mk acc1 exc =>
          obtain ⟨a1, a2⟩ := acc1
          rw [hr] at h11 h12 h13
          dsimp only at h11 h12 h13
          cases exc with
          | some e =>
              dsimp only
              constructor
              · rw [h11, h12]
                simp
              · intro hf
                exact h13 hf
          | none =>
              dsimp only
              cases he : tin.eventsLoad with
              | error e =>
                  dsimp only
                  constructor
                  · rw [h11, h12]
                    simp
                  · intro hf
                    exact h13 hf
              | ok evmap =>
                  dsimp only
                  obtain ⟨new2, h21, h22, h23⟩ := evLoop_append tin
                    ((dlookup tin.today evmap).getD []) a1 a2
                  constructor
                  · rw [h21, h22, h11, h12]
                    simp
                  · intro hf
                    exact h23 (h13 hf)

theorem runDaemon_spec (ticks : List TickIn) :
    ∀ fired, (runDaemon fired ticks).1 =
        fired ++ ((runDaemon fired ticks).2.map Notif.nkey) ∧
      (fired.Nodup → (runDaemon fired ticks).1.Nodup) := by
  induction ticks with
  | nil => intro fired; simp [runDaemon]
  | cons tin rest ih =>
      intro fired
      obtain ⟨hkeys, hnd⟩ := daemonTick_spec fired tin
      cases hd : daemonTick fired tin with
      | mk acc exc =>
          obtain ⟨f', ns⟩ := acc
          rw [hd] at hkeys hnd
          dsimp only at hkeys hnd
          cases exc with
          | some e =>
              constructor
              · simp only [runDaemon, hd]
                exact hkeys
              · intro hf
                simp only [runDaemon, hd]
                exact hnd hf
          | none =>
              obtain ⟨ihk, ihnd⟩ := ih f'
              constructor
              · simp only [runDaemon, hd]
                rw [ihk, hkeys]
                simp
              · intro hf
                simp only [runDaemon, hd]
                exact ihnd (hnd hf)

/-- A tick at 10:00 on 2024-03-05 with the fixed schedule ["10:00"]. -/
def tickTen : TickIn :=
  { now := "10:00", today := "2024-03-05",
    schedLoad := .ok ["10:00"],
    dataLoad := .ok ⟨["Meditate"], []⟩,
    eventsLoad := .ok [] }

/-- C1: the reminder daemon dispatches at most one notification per
composite dedup key — the list of keys of all notifications dispatched
over any sequence of ticks has no duplicate — and with schedule
["10:00"] and a clock at "10:00" three polls within the same minute
dispatch exactly one notification for that day. -/
theorem c1_daemon_dedup :
    (∀ ticks : List TickIn,
      ((runDaemon [] ticks).2.map Notif.nkey).Nodup) ∧
    (runDaemon [] [tickTen, tickTen, tickTen]).2.map Notif.nkey =
      ["2024-03-05-10:00"] := by
  constructor
  · intro ticks
    obtain ⟨hkeys, hnd⟩ := runDaemon_spec ticks []
    have := hnd List.nodup_nil
    rw [hkeys] at this
    simpa using this
  · rfl

/-- A tick whose schedule load raises (malformed schedule.json). -/
def tickBad : TickIn :=
  { now := "10:00", today := "2024-03-05",
    schedLoad := .error "malformed schedule.json",
    dataLoad := .ok ⟨["Meditate"], []⟩,
    eventsLoad := .ok [] }

/-- A tick where the schedule's 10:00 reminder fires but the events
load then raises (malformed events.json). -/
def tickEvBad : TickIn :=
  { now := "10:00", today := "2024-03-05",
    schedLoad := .ok ["10:00"],
    dataLoad := .ok ⟨["Meditate"], []⟩,
    eventsLoad := .error "malformed events.json" }

/-- C2 counterexample: the daemon loop does not isolate load failures.
A failing schedule load leaves the tick with an uncaught exception and
the daemon never retries: a following tick that would dispatch a
notification on its own never runs.  And when the events load fails
*after* a reminder already fired that tick, the cycle did dispatch —
so the cycle was not skipped either. -/
theorem c2_counterexample :
    (daemonTick [] tickBad).2 = some "malformed schedule.json" ∧
    runDaemon [] [tickBad, tickTen] = ([], []) ∧
    (runDaemon [] [tickTen]).2.length = 1 ∧
    (daemonTick [] tickEvBad).2 = some "malformed events.json" ∧
    (runDaemon [] [tickEvBad, tickTen]).2.length = 1 := by
  refine ⟨rfl, rfl, rfl, rfl, rfl⟩

/-- C2 amended: `reminder_daemon` has no exception handling: a failing
store load is not caught — the tick ends with that uncaught exception
crossing the daemon-loop boundary, the daemon thread dies, and no later
tick runs (no skip-and-retry).  Notifications sent earlier in the
crashing tick still went out: a failing schedule load dispatches
nothing that tick, while a failing events load keeps the reminder
notifications the same tick already dispatched. -/
theorem c2_daemon_load_failure_propagates (fired : List String)
    (tin : TickIn) (e : String) :
    ((daemonTick fired tin).2 = some e →
      ∀ rest, runDaemon fired (tin :: rest) = (daemonTick fired tin).1) ∧
    (tin.schedLoad = .error e →
      daemonTick fired tin = ((fired, []), some e)) ∧
    (∀ reminders, tin.schedLoad = .ok reminders →
      (remLoop tin (fired, []) reminders).2 = none →
      tin.eventsLoad = .error e →
      daemonTick fired tin =
        ((remLoop tin (fired, []) reminders).1, some e)) := by
  refine ⟨?_, ?_, ?_⟩
  · intro hexc rest
    cases hd : daemonTick fired tin with
    | mk acc exc =>
        rw [hd] at hexc
        dsimp only at hexc
        subst hexc
        simp [runDaemon, hd]
  · intro hs
    simp [daemonTick, hs]
  · intro reminders hs hnone he
    unfold daemonTick
    rw [hs]
    dsimp only
    cases hr : remLoop tin (fired, []) reminders with
    | mk acc1 exc1 =>
        rw [hr] at hnone
        dsimp only at hnone
        subst hnone
        dsimp only
        rw [he]

/-- Witness for C2 amended at concrete ticks: the failing schedule load
crashes its tick with nothing dispatched; the failing events load
crashes its tick keeping the already-sent reminder notification; and
the run ends with the crashing tick. -/
theorem c2_daemon_load_failure_propagates_witness :
    daemonTick [] tickBad = (([], []), some "malformed schedule.json") ∧
    daemonTick [] tickEvBad =
      ((["2024-03-05-10:00"],
        [Notif.mk "2024-03-05-10:00" "HABIT reminder (10:00)"
          "Pending: Meditate"]),
       some "malformed events.json") ∧
    runDaemon [] [tickBad, tickTen] = (daemonTick [] tickBad).1 := by
  refine ⟨?_, ?_, ?_⟩
  · exact (c2_daemon_load_failure_propagates [] tickBad
      "malformed schedule.json").2.1 rfl
  · have h := (c2_daemon_load_failure_propagates [] tickEvBad
      "malformed events.json").2.2 ["10:00"] rfl rfl rfl
    rw [h]
    rfl
  · exact (c2_daemon_load_failure_propagates [] tickBad
      "malformed schedule.json").1 rfl [tickTen]

/-! ## Streak engine (`get_streak`)

`get_streak` walks backward from today with `d -= timedelta(days=1)`.
For the walk we identify calendar dates with integer day numbers: ISO
date strings are in order-preserving bijection with days, and
subtracting one day is the predecessor.  The log is keyed by day number
here.

The Python `while True:` loop terminates because every day it counts
must be a key of the finite log dict and the visited days are pairwise
distinct, so at most `len(log)` iterations count; we embed the loop
with fuel `log.length + 1` and prove below (`get_streak_le_length`)
that this fuel is never exhausted, i.e. the embedded function satisfies
the loop's exit condition. -/

/-- The habit log keyed by integer day number. -/
abbrev StreakLog := List (Int × DayLog)

/-- `ds in log and log[ds].get(name)` for day number `d`. -/
def doneOnDay (log : StreakLog) (d : Int) (name : String) : Bool :=
  match dlookup d log with
  | none => false
  | some day => (dlookup name day).getD false

/-- The body of get_streak's while loop, with explicit fuel. -/
def streakAux (log : StreakLog) (name : String) : Int → Nat → Nat
  | _, 0 => 0
  | d, fuel + 1 =>
      if doneOnDay log d name then streakAux log name (d - 1) fuel + 1 else 0

/-- `get_streak(log, name)` from day `today`. -/
def get_streak (log : StreakLog) (name : String) (today : Int) : Nat :=
  streakAux log name today (log.length + 1)

theorem streakAux_le (log : StreakLog) (name : String) :
    ∀ fuel d, streakAux log name d fuel ≤ fuel := by
  intro fuel
  induction fuel with
  | zero => intro d; simp [streakAux]
  | succ n ih =>
      intro d
      by_cases h : doneOnDay log d name
      · simpa [streakAux, h] using ih (d - 1)
      · simp [streakAux, h]

theorem streakAux_done (log : StreakLog) (name : String) :
    ∀ fuel (d : Int) (i : Nat), i < streakAux log name d fuel →
      doneOnDay log (d - i) name = true := by
  intro fuel
  induction fuel with
  | zero => intro d i h; simp [streakAux] at h
  | succ n ih =>
      intro d i h
      by_cases hd : doneOnDay log d name
      · simp only [streakAux, if_pos hd] at h
        cases i with
        | zero => simpa using hd
        | succ j =>
            have hj : j < streakAux log name (d - 1) n := by omega
            have := ih (d - 1) j hj
            have harith : d - 1 - (j : Int) = d - ((j : Nat) + 1 : Nat) := by
              push_cast
              ring
            rwa [harith] at this
      · simp [streakAux, hd] at h

theorem streakAux_stop (log : StreakLog) (name : String) :
    ∀ fuel (d : Int), streakAux log name d fuel < fuel →
      doneOnDay log (d - (streakAux log name d fuel : Int)) name = false := by
  intro fuel
  induction fuel with
  | zero => intro d h; omega
  | succ n ih =>
      intro d h
      by_cases hd : doneOnDay log d name
      · simp only [streakAux, if_pos hd] at h ⊢
        have hn : streakAux log name (d - 1) n < n := by omega
        have := ih (d - 1) hn
        have harith : d - 1 - (streakAux log name (d - 1) n : Int) =
            d - ((streakAux log name (d - 1) n + 1 : Nat) : Int) := by
          push_cast
          ring
        rwa [harith] at this
      · simp only [streakAux, if_neg hd]
        simpa using (Bool.eq_false_iff.mpr hd)

theorem doneOnDay_mem_keys {log : StreakLog} {d : Int} {name : String}
    (h : doneOnDay log d name = true) : d ∈ log.map Prod.fst := by
  apply dlookup_isSome_mem_keys (k := d) (m := log)
  cases hl : dlookup d log with
  | none => rw [doneOnDay, hl] at h; simp at h
  | some day => simp

/-- The fuel `log.length + 1` is never exhausted: the loop's counted
days are distinct keys of the log. -/
theorem get_streak_le_length (log : StreakLog) (name : String) (today : Int) :
    get_streak log name today ≤ log.length := by
  by_contra hgt
  push_neg at hgt
  have hle : get_streak log name today ≤ log.length + 1 :=
    streakAux_le log name (log.length + 1) today
  have heq : get_streak log name today = log.length + 1 := by omega
  have hdone : ∀ i : Nat, i < log.length + 1 →
      doneOnDay log (today - i) name = true := by
    intro i hi
    apply streakAux_done log name (log.length + 1) today i
    have hx : streakAux log name today (log.length + 1) = log.length + 1 := heq
    omega
  have hinj : Function.Injective (fun i : Nat => today - (i : Int)) := by
    intro a b hab
    simp only at hab
    omega
  have hsub : (Finset.range (log.length + 1)).image
      (fun i : Nat => today - (i : Int)) ⊆ (log.map Prod.fst).toFinset := by
    intro x hx
    obtain ⟨i, hi, rfl⟩ := Finset.mem_image.mp hx
    exact List.mem_toFinset.mpr
      (doneOnDay_mem_keys (hdone i (Finset.mem_range.mp hi)))
  have hcard : log.length + 1 ≤ (log.map Prod.fst).toFinset.card := by
    calc log.length + 1
        = ((Finset.range (log.length + 1)).image
            (fun i : Nat => today - (i : Int))).card := by
          rw [Finset.card_image_of_injective _ hinj, Finset.card_range]
      _ ≤ (log.map Prod.fst).toFinset.card := Finset.card_le_card hsub
  have := (log.map Prod.fst).toFinset_card_le
  simp only [List.length_map] at this
  omega

/-- C7: `streak(L, h)` is 0 iff today is not marked done, and otherwise
it is the exact length of the maximal run of consecutive done-days
ending today: every day in the window is done, the day just before the
window is not done, and no longer all-done window exists. -/
theorem c7_streak_exact_run (log : StreakLog) (name : String) (today : Int) :
    (get_streak log name today = 0 ↔ doneOnDay log today name = false) ∧
    (∀ i : Nat, i < get_streak log name today →
      doneOnDay log (today - i) name = true) ∧
    doneOnDay log (today - (get_streak log name today : Int)) name = false ∧
    (∀ m : Nat, (∀ i : Nat, i < m → doneOnDay log (today - i) name = true) →
      m ≤ get_streak log name today) := by
  have hlt : get_streak log name today < log.length + 1 := by
    have := get_streak_le_length log name today
    omega
  have hstop : doneOnDay log (today - (get_streak log name today : Int))
      name = false := streakAux_stop log name (log.length + 1) today hlt
  have hdone : ∀ i : Nat, i < get_streak log name today →
      doneOnDay log (today - i) name = true :=
    fun i hi => streakAux_done log name (log.length + 1) today i hi
  refine ⟨?_, hdone, hstop, ?_⟩
  · constructor
    · intro h0
      rw [h0] at hstop
      simpa using hstop
    · intro hnd
      simp [get_streak, streakAux, hnd]
  · intro m hm
    by_contra hgt
    push_neg at hgt
    have hdn := hm (get_streak log name today) hgt
    simp [hstop] at hdn

/-- Concrete streak log: done on days 5 and 4, not done on day 3. -/
def streakLogEx : StreakLog :=
  [((5 : Int), [("meditate", true)]),
   ((4 : Int), [("meditate", true)]),
   ((3 : Int), [("meditate", false)])]

/-- Witness for C7 at a concrete log: the streak on day 5 is 2, the two
counted days are done, and the day before the run is not. -/
theorem c7_streak_exact_run_witness :
    get_streak streakLogEx "meditate" 5 = 2 ∧
    doneOnDay streakLogEx (5 - ((1 : Nat) : Int)) "meditate" = true ∧
    doneOnDay streakLogEx (5 - ((2 : Nat) : Int)) "meditate" = false := by
  refine ⟨by decide, ?_, ?_⟩
  · exact (c7_streak_exact_run streakLogEx "meditate" 5).2.1 1 (by decide)
  · have h := (c7_streak_exact_run streakLogEx "meditate" 5).2.2.1
    have h2 : get_streak streakLogEx "meditate" 5 = 2 := by decide
    rwa [h2] at h

/-! ## Completion engine (`completion_ratio`)

Python float division is modelled with exact rationals. -/

/-- `completion_ratio(log, habits, ds)`. -/
def completion_ratio (log : Log) (habits : List String) (ds : String) : ℚ :=
  if habits = [] then 0
  else (habits.countP (fun h => checkedOn log ds h) : ℚ) / (habits.length : ℚ)

/-- C8: `completion_ratio` is total and never divides by zero: it is
exactly 0 on an empty habit list, and otherwise the denominator is the
nonzero habit count and the value is the fraction of habits marked done
on the date; the result always lies in [0, 1]. -/
theorem c8_completion_ratio_total (log : Log) (habits : List String)
    (ds : String) :
    (habits = [] → completion_ratio log habits ds = 0) ∧
    (habits ≠ [] → ((habits.length : ℚ) ≠ 0 ∧
      completion_ratio log habits ds =
        (habits.countP (fun h => checkedOn log ds h) : ℚ) /
          (habits.length : ℚ))) ∧
    0 ≤ completion_ratio log habits ds ∧
    completion_ratio log habits ds ≤ 1 := by
  refine ⟨fun h => by simp [completion_ratio, h], fun h => ?_, ?_, ?_⟩
  · have hlen : 0 < habits.length := List.length_pos.mpr h
    refine ⟨by positivity, by simp [completion_ratio, h]⟩
  · unfold completion_ratio
    split
    · norm_num
    · positivity
  · unfold completion_ratio
    split
    · norm_num
    · rename_i h
      have hlen : 0 < habits.length := List.length_pos.mpr h
      rw [div_le_one (by positivity)]
      exact_mod_cast List.countP_le_length _

/-- Witness for C8: the empty habit list yields exactly 0 (no division
by zero), and a concrete half-done day yields a ratio in bounds. -/
theorem c8_completion_ratio_total_witness :
    completion_ratio [] [] "2024-03-05" = 0 ∧
    completion_ratio [("2024-03-05", [("a", true)])] ["a", "b"] "2024-03-05"
      ≤ 1 :=
  ⟨(c8_completion_ratio_total [] [] "2024-03-05").1 rfl,
   (c8_completion_ratio_total [("2024-03-05", [("a", true)])] ["a", "b"]
      "2024-03-05").2.2.2⟩

/-! ## Interaction state machine (`class App`)

The modal controller.  Key events are curses `getch()` codes (`Int`,
-1 on timeout).  Persistence calls and other process-level side effects
are returned as an effect list next to the successor state.  List
indexing that would raise `IndexError` in Python on an out-of-range
cursor is modelled totally (`getD` / `eraseIdx`); reachable states keep
cursors in range and the claims only exercise in-range cursors. -/

/-- `self.mode` (both tabs share the one field). -/
inductive Mode
  | main | add | delete | remind | remind_add
  | cal_browse | event_add_title | event_add_time | event_add_notes
  | journal_edit
  deriving Repr, DecidableEq

/-- `self.cal_panel`. -/
inductive Panel
  | events | journal
  deriving Repr, DecidableEq

/-- Persistence / process effects performed by a handler. -/
inductive Eff
  | saveData | saveSchedule | saveEvents | saveJournal | exitApp | exportCsv
  deriving Repr, DecidableEq

/-- Wall-clock observations a handler may make: `today_str()` and the
journal's `datetime.now().strftime("%d %b %Y  %H:%M")` stamp. -/
structure Clock where
  todayS : String
  stamp : String
  deriving Repr, DecidableEq

/-- The mutable fields of `App`. -/
structure AppState where
  data : Data
  sched : List String
  events : EMap
  journal : JMap
  tab : Nat
  mode : Mode
  status : String
  input_buf : String
  h_cursor : Nat
  remind_cursor : Nat
  cal_year : Int
  cal_month : Nat
  cal_cursor : Nat
  ev_cursor : Nat
  cal_panel : Panel
  ev_title : String
  ev_time : String
  ev_notes : String
  deriving Repr, DecidableEq

/-- curses key codes used by the handlers. -/
def KEY_DOWN : Int := 258
def KEY_UP : Int := 259
def KEY_LEFT : Int := 260
def KEY_RIGHT : Int := 261
def KEY_BACKSPACE : Int := 263
def KEY_ENTER : Int := 343

/-! ### Calendar/date engine -/

/-- Gregorian leap year, as used by Python's `calendar.monthrange`. -/
def isLeap (y : Int) : Bool := y % 4 = 0 ∧ (y % 100 ≠ 0 ∨ y % 400 = 0)

/-- `calendar.monthrange(y, m)[1]`: the number of days of month `m`
(months are kept in 1..12 by `_cal_next`/`_cal_prev`). -/
def daysInMonth (y : Int) (m : Nat) : Nat :=
  if m = 2 then (if isLeap y then 29 else 28)
  else if m = 4 ∨ m = 6 ∨ m = 9 ∨ m = 11 then 30
  else 31

def pad2 (n : Nat) : String := if n < 10 then "0" ++ toString n else toString n

def pad4 (n : Nat) : String :=
  if n < 10 then "000" ++ toString n
  else if n < 100 then "00" ++ toString n
  else if n < 1000 then "0" ++ toString n
  else toString n

/-- `date(y, m, d).isoformat()`.  Python dates have `1 <= y <= 9999`;
the embedding takes `y.toNat` (navigation in the claims stays in
range). -/
def isoDate (y : Int) (m d : Nat) : String :=
  pad4 y.toNat ++ "-" ++ pad2 m ++ "-" ++ pad2 d

example : isoDate 2024 3 5 = "2024-03-05" := by decide

/-- `cal_day_date`/`cal_date_str`: the selected ISO date, or `none` when
the day-of-month cursor exceeds the month's length (the lower bound
`1 <= d` of the source holds for free since the cursor is a `Nat`). -/
def cal_date_str (st : AppState) : Option String :=
  let d := st.cal_cursor + 1
  if d ≤ daysInMonth st.cal_year st.cal_month then
    some (isoDate st.cal_year st.cal_month d)
  else none

/-! ### Habits-tab handlers -/

/-- `App._toggle_habit`.  (`habits[self.h_cursor]` raises on an
out-of-range cursor in Python; modelled with `getD`.) -/
def toggle_habit (st : AppState) (c : Clock) : AppState × List Eff :=
  if st.data.habits = [] then (st, [])
  else
    let name := st.data.habits.getD st.h_cursor ""
    let day := (dlookup c.todayS st.data.log).getD []
    let newVal := ! (dlookup name day).getD false
    let day' := dupsert name newVal day
    ({st with
        data := { st.data with log := dupsert c.todayS day' st.data.log },
        status := (if newVal then "✓  Checked:  " else "✗  Unchecked:  ")
          ++ name },
     [.saveData])

/-- `App._finish_add`. -/
def finish_add (st : AppState) : AppState × List Eff :=
  let name := pstrip st.input_buf
  if name ≠ "" then
    if name ∉ st.data.habits then
      ({st with
          data := { st.data with habits := st.data.habits ++ [name] },
          h_cursor := st.data.habits.length,
          status := "Added:  " ++ name,
          mode := .main, input_buf := "" }, [.saveData])
    else
      ({st with
          status := "'" ++ name ++ "' already exists",
          mode := .main, input_buf := "" }, [])
  else ({st with mode := .main, input_buf := ""}, [])

/-- `App._h_del_confirm`.  Keys other than y/Y/n/N/ESC fall through all
branches: the state is unchanged and the mode stays `delete`. -/
def h_del_confirm (st : AppState) (key : Int) : AppState × List Eff :=
  if key = 121 ∨ key = 89 then
    if st.data.habits ≠ [] then
      let name := st.data.habits.getD st.h_cursor ""
      ({st with
          data := { st.data with
            habits := st.data.habits.eraseIdx st.h_cursor },
          h_cursor := st.h_cursor - 1,
          status := "Deleted:  " ++ name,
          mode := .main }, [.saveData])
    else ({st with mode := .main}, [])
  else if key = 110 ∨ key = 78 ∨ key = 27 then
    ({st with mode := .main}, [])
  else (st, [])

/-- `App._h_remind_nav`. -/
def h_remind_nav (st : AppState) (key : Int) : AppState × List Eff :=
  if key = 27 ∨ key = 113 ∨ key = 81 then ({st with mode := .main}, [])
  else if key = KEY_DOWN then
    (if st.sched ≠ [] then
      {st with remind_cursor := (st.remind_cursor + 1) % st.sched.length}
     else st, [])
  else if key = KEY_UP then
    (if st.sched ≠ [] then
      {st with remind_cursor :=
        (st.remind_cursor + st.sched.length - 1) % st.sched.length}
     else st, [])
  else if key = 97 ∨ key = 65 then
    ({st with mode := .remind_add, input_buf := ""}, [])
  else if key = 100 ∨ key = 68 then
    if st.sched ≠ [] then
      ({st with
          sched := st.sched.eraseIdx st.remind_cursor,
          remind_cursor := st.remind_cursor - 1}, [.saveSchedule])
    else (st, [])
  else (st, [])

/-- `App._finish_remind_add`.  Note the source sets `self.mode =
"remind"` on every path: also when the input fails to parse.
Python's `list.sort()` is a stable ascending sort; the output of any
stable sort under a total preorder is unique, so the structural
insertion sort models it exactly. -/
def finish_remind_add (st : AppState) : AppState × List Eff :=
  let t := pstrip st.input_buf
  match parseHM t with
  | some _ =>
      if t ∉ st.sched then
        ({st with
            sched := (st.sched ++ [t]).insertionSort pyStrLe,
            status := "Reminder set:  " ++ t,
            mode := .remind, input_buf := "" }, [.saveSchedule])
      else
        ({st with
            status := t ++ " already exists",
            mode := .remind, input_buf := "" }, [])
  | none =>
      ({st with
          status := "Invalid — use HH:MM (24h)",
          mode := .remind, input_buf := "" }, [])

/-- `App._h_text_input`, parameterized by the mode's completion
action. -/
def h_text_input (st : AppState) (key : Int)
    (on_enter : AppState → AppState × List Eff) : AppState × List Eff :=
  if key = KEY_BACKSPACE ∨ key = 127 ∨ key = 8 then
    ({st with input_buf := st.input_buf.dropRight 1}, [])
  else if key = 27 then
    ({st with
        mode := if st.tab = 0 then .main else .cal_browse,
        input_buf := ""}, [])
  else if key = KEY_ENTER ∨ key = 10 ∨ key = 13 then on_enter st
  else if 32 ≤ key ∧ key ≤ 126 then
    ({st with input_buf := st.input_buf.push (Char.ofNat key.toNat)}, [])
  else (st, [])

/-- `App._h_main`.  The CSV-export status in the source carries the
absolute home-directory path; the environment-dependent prefix is
omitted here. -/
def h_main (st : AppState) (key : Int) (c : Clock) : AppState × List Eff :=
  let habits := st.data.habits
  if key = 113 ∨ key = 81 then (st, [.exitApp])
  else if key = KEY_DOWN then
    (if habits ≠ [] then
      {st with h_cursor := (st.h_cursor + 1) % habits.length} else st, [])
  else if key = KEY_UP then
    (if habits ≠ [] then
      {st with h_cursor := (st.h_cursor + habits.length - 1) % habits.length}
     else st, [])
  else if key = 32 then toggle_habit st c
  else if key = 97 ∨ key = 65 then
    ({st with mode := .add, input_buf := "", status := ""}, [])
  else if key = 100 ∨ key = 68 then
    (if habits ≠ [] then {st with mode := .delete} else st, [])
  else if key = 114 ∨ key = 82 then
    ({st with mode := .remind, remind_cursor := 0}, [])
  else if key = 101 ∨ key = 69 then
    ({st with status := "Exported  →  habits_export_" ++ c.todayS ++ ".csv"},
     [.exportCsv])
  else (st, [])

/-! ### Calendar-tab handlers -/

/-- `App._cal_next`. -/
def cal_next (st : AppState) : AppState :=
  if st.cal_month = 12 then
    {st with cal_month := 1, cal_year := st.cal_year + 1}
  else {st with cal_month := st.cal_month + 1}

/-- `App._cal_prev`. -/
def cal_prev (st : AppState) : AppState :=
  if st.cal_month = 1 then
    {st with cal_month := 12, cal_year := st.cal_year - 1}
  else {st with cal_month := st.cal_month - 1}

/-- `App._delete_event`. -/
def delete_event (st : AppState) : AppState × List Eff :=
  match cal_date_str st with
  | none => (st, [])
  | some ds =>
      let evs := (dlookup ds st.events).getD []
      if evs = [] then ({st with status := "No events to delete"}, [])
      else if st.ev_cursor < evs.length then
        let removed := evs.getD st.ev_cursor ⟨"", "", ""⟩
        let evs' := evs.eraseIdx st.ev_cursor
        ({st with
            events := if evs' = [] then derase ds st.events
              else dupsert ds evs' st.events,
            ev_cursor := st.ev_cursor - 1,
            status := "Deleted:  " ++ removed.title }, [.saveEvents])
      else (st, [])

/-- `App._finish_ev_title`. -/
def finish_ev_title (st : AppState) : AppState × List Eff :=
  ({st with
      ev_title := pstrip st.input_buf, input_buf := "",
      mode := .event_add_time}, [])

/-- `App._finish_ev_time`: an invalid non-empty time is discarded (time
field cleared) and the flow continues to the notes step. -/
def finish_ev_time (st : AppState) : AppState × List Eff :=
  let t := pstrip st.input_buf
  if t ≠ "" then
    match parseHM t with
    | some _ =>
        ({st with
            ev_time := t, input_buf := "",
            mode := .event_add_notes}, [])
    | none =>
        ({st with
            status := "Invalid time, skipped", ev_time := "",
            input_buf := "", mode := .event_add_notes}, [])
  else ({st with ev_time := "", input_buf := "", mode := .event_add_notes}, [])

/-- The sort key `lambda e: e.get("time") or "99:99"` (the empty time
string is falsy). -/
def evKey (e : Ev) : String := if e.time = "" then "99:99" else e.time

/-- `evs.sort(key=...)` compares the string keys ascending. -/
def evLe (a b : Ev) : Prop := pyStrLe (evKey a) (evKey b)

instance : DecidableRel evLe :=
  fun a b => inferInstanceAs (Decidable (pyStrLe (evKey a) (evKey b)))

instance : IsTotal Ev evLe :=
  ⟨fun a b => IsTotal.total (r := pyStrLe) (evKey a) (evKey b)⟩

instance : IsTrans Ev evLe :=
  ⟨fun _ _ _ hab hbc => Trans.trans (r := pyStrLe) (s := pyStrLe) hab hbc⟩

/-- `App._finish_ev_notes`: commit happens here only, and only with a
non-empty (already trimmed) title and a valid selected date. -/
def finish_ev_notes (st : AppState) : AppState × List Eff :=
  let notes := pstrip st.input_buf
  if st.ev_title ≠ "" then
    match cal_date_str st with
    | some ds =>
        let evs := (dlookup ds st.events).getD []
        let evs' :=
          (evs ++ [Ev.mk st.ev_title st.ev_time notes]).insertionSort evLe
        ({st with
            ev_notes := notes, input_buf := "",
            events := dupsert ds evs' st.events,
            status := "Event added:  " ++ st.ev_title,
            cal_panel := .events, mode := .cal_browse }, [.saveEvents])
    | none =>
        ({st with
            ev_notes := notes, input_buf := "",
            mode := .cal_browse}, [])
  else ({st with ev_notes := notes, input_buf := "", mode := .cal_browse}, [])

/-- `App._save_journal`.  Note the empty-text path persists only when an
entry for the date existed. -/
def save_journal (st : AppState) (c : Clock) : AppState × List Eff :=
  let ds := (cal_date_str st).getD c.todayS
  let text := pstrip st.input_buf
  if text ≠ "" then
    ({st with
        journal := dupsert ds ⟨text, c.stamp⟩ st.journal,
        status := "Journal saved  ✓",
        mode := .cal_browse, input_buf := "", cal_panel := .journal },
     [.saveJournal])
  else if dcontains ds st.journal then
    ({st with
        journal := derase ds st.journal,
        status := "Journal cleared",
        mode := .cal_browse, input_buf := "", cal_panel := .journal },
     [.saveJournal])
  else
    ({st with
        status := "Journal cleared",
        mode := .cal_browse, input_buf := "", cal_panel := .journal }, [])

/-- `App._h_journal_edit`: ENTER inserts a newline, ESC saves, Ctrl+X
discards. -/
def h_journal_edit (st : AppState) (key : Int) (c : Clock) :
    AppState × List Eff :=
  if key = 27 then save_journal st c
  else if key = 24 then
    ({st with
        mode := .cal_browse, input_buf := "",
        status := "Journal discarded"}, [])
  else if key = KEY_BACKSPACE ∨ key = 127 ∨ key = 8 then
    ({st with input_buf := st.input_buf.dropRight 1}, [])
  else if key = KEY_ENTER ∨ key = 10 ∨ key = 13 then
    ({st with input_buf := st.input_buf ++ "\n"}, [])
  else if 32 ≤ key ∧ key ≤ 126 then
    ({st with input_buf := st.input_buf.push (Char.ofNat key.toNat)}, [])
  else (st, [])

/-- Set the calendar day-of-month cursor (used when the displayed month
changes). -/
def withCalCursor (s : AppState) (n : Nat) : AppState :=
  {s with cal_cursor := n}

/-- `App._h_cal_browse`.  (`days = monthrange(...)[1]` is inlined at
its two use sites.) -/
def h_cal_browse (st : AppState) (key : Int) (c : Clock) :
    AppState × List Eff :=
  if key = 113 ∨ key = 81 then (st, [.exitApp])
  else if key = KEY_RIGHT then
    (if st.cal_cursor < daysInMonth st.cal_year st.cal_month - 1 then
      {st with cal_cursor := st.cal_cursor + 1}
     else withCalCursor (cal_next st) 0, [])
  else if key = KEY_LEFT then
    (if st.cal_cursor > 0 then {st with cal_cursor := st.cal_cursor - 1}
     else
       withCalCursor (cal_prev st)
         (daysInMonth (cal_prev st).cal_year (cal_prev st).cal_month - 1),
     [])
  else if key = KEY_DOWN then
    ({st with
        cal_cursor := min (st.cal_cursor + 7)
          (daysInMonth st.cal_year st.cal_month - 1)}, [])
  else if key = KEY_UP then
    ({st with cal_cursor := st.cal_cursor - 7}, [])
  else if key = 93 then (withCalCursor (cal_next st) 0, [])
  else if key = 91 then (withCalCursor (cal_prev st) 0, [])
  else if key = 110 ∨ key = 78 then
    ({st with
        ev_title := "", ev_time := "", ev_notes := "",
        mode := .event_add_title, input_buf := ""}, [])
  else if key = 120 ∨ key = 88 then delete_event st
  else if key = 101 ∨ key = 69 then ({st with cal_panel := .events}, [])
  else if key = 106 ∨ key = 74 then ({st with cal_panel := .journal}, [])
  else if key = 119 ∨ key = 87 then
    ({st with
        input_buf := ((dlookup ((cal_date_str st).getD c.todayS)
          st.journal).map JEntry.text).getD "",
        mode := .journal_edit, cal_panel := .journal}, [])
  else (st, [])

/-! ### Dispatch -/

/-- `App._handle_habits`.  (A calendar mode while on the habits tab
matches no branch and is a no-op, like the Python if/elif chain.) -/
def handle_habits (st : AppState) (key : Int) (c : Clock) :
    AppState × List Eff :=
  match st.mode with
  | .main => h_main st key c
  | .add => h_text_input st key finish_add
  | .delete => h_del_confirm st key
  | .remind => h_remind_nav st key
  | .remind_add => h_text_input st key finish_remind_add
  | _ => (st, [])

/-- `App._handle_calendar`. -/
def handle_calendar (st : AppState) (key : Int) (c : Clock) :
    AppState × List Eff :=
  match st.mode with
  | .cal_browse => h_cal_browse st key c
  | .event_add_title => h_text_input st key finish_ev_title
  | .event_add_time => h_text_input st key finish_ev_time
  | .event_add_notes => h_text_input st key finish_ev_notes
  | .journal_edit => h_journal_edit st key c
  | _ => (st, [])

/-- One iteration of `App.run`'s key dispatch (the Tab switch from an
idle mode, then the per-tab handler). -/
def handle (st : AppState) (key : Int) (c : Clock) : AppState × List Eff :=
  if key = 9 ∧ (st.mode = .main ∨ st.mode = .cal_browse) then
    let newTab := 1 - st.tab
    ({st with
        tab := newTab,
        mode := if newTab = 0 then .main else .cal_browse,
        status := ""}, [])
  else if st.tab = 0 then handle_habits st key c
  else handle_calendar st key c

/-- `App.__init__` given the loaded documents and today's date. -/
def initState (data : Data) (sched : List String) (events : EMap)
    (journal : JMap) (y : Int) (m : Nat) (day : Nat) : AppState :=
  { data := data, sched := sched, events := events, journal := journal,
    tab := 0, mode := .main, status := "", input_buf := "",
    h_cursor := 0, remind_cursor := 0,
    cal_year := y, cal_month := m, cal_cursor := day - 1, ev_cursor := 0,
    cal_panel := .events, ev_title := "", ev_time := "", ev_notes := "" }

/-- States the interaction state machine can reach: an initial state for
some loaded documents and some current date, closed under key events. -/
inductive Reachable : AppState → Prop
  | init : ∀ data sched events journal y m day,
      Reachable (initState data sched events journal y m day)
  | step : ∀ st key c, Reachable st → Reachable (handle st key c).1

/-! ## Claims about the habit-deletion confirmation mode (C4, C9) -/

/-- A state sitting in delete-confirmation mode over the single habit
"Meditate", which has log history on 2024-03-05. -/
def delConfirmSt : AppState :=
  { initState ⟨["Meditate"], [("2024-03-05", [("Meditate", true)])]⟩
      [] [] [] 2024 3 5 with mode := .delete }

/-- C4 counterexample: in delete-confirmation mode, the key 'x' (120) —
neither affirmative nor n/N/ESC — does *not* cancel back to the idle
mode: the state (mode included) is completely unchanged, so the machine
stays in the confirmation mode rather than returning to `main`. -/
theorem c4_counterexample :
    h_del_confirm delConfirmSt 120 = (delConfirmSt, []) ∧
    delConfirmSt.mode = Mode.delete ∧
    (h_del_confirm delConfirmSt 120).1.mode ≠ Mode.main := by
  refine ⟨rfl, rfl, by decide⟩

/-- C4 amended: an affirmative key (y/Y) removes the currently selected
habit, persists, and returns to idle; n, N or escape cancel to idle
without any mutation; every other key leaves the state entirely
unchanged (the confirmation mode stays open). -/
theorem c4_del_confirm_amended (st : AppState) (key : Int) :
    ((key = 121 ∨ key = 89) → st.data.habits ≠ [] →
      (h_del_confirm st key).1.data.habits =
          st.data.habits.eraseIdx st.h_cursor ∧
        (h_del_confirm st key).1.h_cursor = st.h_cursor - 1 ∧
        (h_del_confirm st key).1.mode = Mode.main ∧
        (h_del_confirm st key).2 = [Eff.saveData] ∧
        (h_del_confirm st key).1.data.log = st.data.log) ∧
    ((key = 110 ∨ key = 78 ∨ key = 27) →
      h_del_confirm st key = ({st with mode := Mode.main}, [])) ∧
    (¬ (key = 121 ∨ key = 89 ∨ key = 110 ∨ key = 78 ∨ key = 27) →
      h_del_confirm st key = (st, [])) := by
  refine ⟨?_, ?_, ?_⟩
  · intro hk hne
    unfold h_del_confirm
    rw [if_pos hk, if_pos hne]
    exact ⟨rfl, rfl, rfl, rfl, rfl⟩
  · intro hk
    unfold h_del_confirm
    rw [if_neg (by omega), if_pos hk]
  · intro hk
    unfold h_del_confirm
    rw [if_neg (by omega), if_neg (by omega)]

/-- Witness for C4 amended: pressing 'y' on the concrete state deletes
the selected habit and returns to the idle mode. -/
theorem c4_del_confirm_amended_witness :
    (h_del_confirm delConfirmSt 121).1.data.habits = [] ∧
    (h_del_confirm delConfirmSt 121).1.mode = Mode.main := by
  have h := (c4_del_confirm_amended delConfirmSt 121).1 (Or.inl rfl) (by decide)
  exact ⟨by rw [h.1]; decide, h.2.2.1⟩

/-- C9: deleting a habit never touches the log (nor the other three
stores): for every state and key the confirmation handler leaves the
entire log mapping unchanged; in particular deleting the only habit
"Meditate" preserves the orphaned history log["2024-03-05"]["Meditate"]. -/
theorem c9_delete_habit_preserves_log :
    (∀ (st : AppState) (key : Int),
      (h_del_confirm st key).1.data.log = st.data.log ∧
      (h_del_confirm st key).1.events = st.events ∧
      (h_del_confirm st key).1.journal = st.journal ∧
      (h_del_confirm st key).1.sched = st.sched) ∧
    ((h_del_confirm delConfirmSt 121).1.data.habits = [] ∧
      dlookup "2024-03-05" (h_del_confirm delConfirmSt 121).1.data.log =
        some [("Meditate", true)] ∧
      dlookup "Meditate"
        ((dlookup "2024-03-05"
            (h_del_confirm delConfirmSt 121).1.data.log).getD []) =
        some true) := by
  constructor
  · intro st key
    unfold h_del_confirm
    split
    · split
      · exact ⟨rfl, rfl, rfl, rfl⟩
      · exact ⟨rfl, rfl, rfl, rfl⟩
    · split
      · exact ⟨rfl, rfl, rfl, rfl⟩
      · exact ⟨rfl, rfl, rfl, rfl⟩
  · refine ⟨by decide, by decide, by decide⟩

/-! ## Claim about journal save (C5) -/

/-- A fixed clock for the journal claims. -/
def clockMar5 : Clock := ⟨"2024-03-05", "05 Mar 2024  10:00"⟩

/-- Journal-edit mode on 2024-03-05 with whitespace-only input and *no*
pre-existing entry for the date. -/
def journalStEmpty : AppState :=
  { initState ⟨[], []⟩ [] [] [] 2024 3 5 with
      mode := .journal_edit, input_buf := "  " }

/-- C5 counterexample: saving whitespace-only text for a date with no
existing entry performs *no* persistence (the source only calls
save_journal when the date was present), contradicting "in both cases
the journal document is persisted"; the mode transition does happen. -/
theorem c5_counterexample :
    pstrip journalStEmpty.input_buf = "" ∧
    journalStEmpty.journal = [] ∧
    (save_journal journalStEmpty clockMar5).2 = [] ∧
    (save_journal journalStEmpty clockMar5).1.mode = Mode.cal_browse := by
  refine ⟨by decide, rfl, rfl, rfl⟩

/-- C5 amended: trimmed-empty text deletes any existing entry (the date
no longer occurs in the journal map) and persists exactly when an entry
existed — when none existed the journal is unchanged and no write
occurs; non-empty text upserts the entry with the fresh timestamp and
persists; every path returns to calendar idle mode with a cleared
buffer. -/
theorem c5_save_journal_amended (st : AppState) (c : Clock) :
    (pstrip st.input_buf ≠ "" →
      (save_journal st c).1.journal =
          dupsert ((cal_date_str st).getD c.todayS)
            ⟨pstrip st.input_buf, c.stamp⟩ st.journal ∧
        dlookup ((cal_date_str st).getD c.todayS)
            (save_journal st c).1.journal =
          some ⟨pstrip st.input_buf, c.stamp⟩ ∧
        (save_journal st c).2 = [Eff.saveJournal]) ∧
    (pstrip st.input_buf = "" →
      dlookup ((cal_date_str st).getD c.todayS)
          (save_journal st c).1.journal = none ∧
        (dcontains ((cal_date_str st).getD c.todayS) st.journal = true →
          (save_journal st c).1.journal =
              derase ((cal_date_str st).getD c.todayS) st.journal ∧
            (save_journal st c).2 = [Eff.saveJournal]) ∧
        (dcontains ((cal_date_str st).getD c.todayS) st.journal = false →
          (save_journal st c).1.journal = st.journal ∧
            (save_journal st c).2 = [])) ∧
    (save_journal st c).1.mode = Mode.cal_browse ∧
    (save_journal st c).1.input_buf = "" := by
  refine ⟨?_, ?_, ?_, ?_⟩
  · intro hne
    simp [save_journal, if_pos hne, dlookup_dupsert_self]
  · intro hemp
    by_cases hc : dcontains ((cal_date_str st).getD c.todayS) st.journal
    · simp [save_journal, hemp, hc, dlookup_derase_self]
    · have hcf : dcontains ((cal_date_str st).getD c.todayS) st.journal
          = false := by
        simpa using hc
      have hnone : dlookup ((cal_date_str st).getD c.todayS) st.journal
          = none := by
        have hns : (dlookup ((cal_date_str st).getD c.todayS)
            st.journal).isSome = false := by
          simpa [dcontains] using hc
        exact Option.not_isSome_iff_eq_none.mp (by simp [hns])
      simp [save_journal, hemp, hcf, hnone]
  · simp only [save_journal]
    split
    · rfl
    · split
      · rfl
      · rfl
  · simp only [save_journal]
    split
    · rfl
    · split
      · rfl
      · rfl

/-- Journal-edit mode on 2024-03-05 with non-empty input over an
existing entry. -/
def journalStUpsert : AppState :=
  { initState ⟨[], []⟩ [] [] [("2024-03-05", ⟨"old text", "01 Mar"⟩)]
      2024 3 5 with
      mode := .journal_edit, input_buf := " hello world " }

/-- Witness for C5 amended: a non-empty buffer upserts the trimmed text
with the fresh timestamp, persists, and returns to calendar idle. -/
theorem c5_save_journal_amended_witness :
    dlookup "2024-03-05" (save_journal journalStUpsert clockMar5).1.journal =
        some ⟨"hello world", "05 Mar 2024  10:00"⟩ ∧
    (save_journal journalStUpsert clockMar5).2 = [Eff.saveJournal] ∧
    (save_journal journalStUpsert clockMar5).1.mode = Mode.cal_browse := by
  have h := c5_save_journal_amended journalStUpsert clockMar5
  have h1 := h.1 (by decide)
  refine ⟨?_, h1.2.2, h.2.2.1⟩
  have e1 : (cal_date_str journalStUpsert).getD clockMar5.todayS =
      "2024-03-05" := by decide
  have e2 : pstrip journalStUpsert.input_buf = "hello world" := by decide
  have hl := h1.2.1
  rw [e1, e2] at hl
  exact hl

/-! ## Claim about adding a reminder (C3) -/

/-- Add-reminder mode with the given schedule and input buffer. -/
def remindAddSt (sched : List String) (inp : String) : AppState :=
  { initState ⟨[], []⟩ sched [] [] 2024 3 5 with
      mode := .remind_add, input_buf := inp }

/-- C3 counterexample: on unparseable input the error status is set but
the add-reminder sub-mode does *not* stay open — the source sets
`self.mode = "remind"` on every path, so the overlay falls back to the
reminder list. -/
theorem c3_counterexample :
    (finish_remind_add (remindAddSt ["09:00"] "banana")).1.status =
        "Invalid — use HH:MM (24h)" ∧
    (finish_remind_add (remindAddSt ["09:00"] "banana")).1.sched = ["09:00"] ∧
    (finish_remind_add (remindAddSt ["09:00"] "banana")).1.mode =
        Mode.remind ∧
    (finish_remind_add (remindAddSt ["09:00"] "banana")).1.mode ≠
        Mode.remind_add := by
  refine ⟨rfl, rfl, rfl, by decide⟩

/-- C3 amended: the completion action trims the input; unparseable text
is rejected with the error status, leaving the schedule unchanged and
unsaved, but the sub-mode *closes* back to the reminder-list mode (as it
does on every path); a parsed duplicate is rejected with the distinct
"already exists" status and the schedule unchanged; otherwise the time
is inserted, the schedule re-sorted ascending and persisted.  Adding
"09:00" then "07:30" yields ["07:30", "09:00"]; re-adding "09:00"
leaves the schedule unchanged. -/
theorem c3_finish_remind_add_amended (st : AppState) :
    (parseHM (pstrip st.input_buf) = none →
      (finish_remind_add st).1.sched = st.sched ∧
        (finish_remind_add st).1.status = "Invalid — use HH:MM (24h)" ∧
        (finish_remind_add st).1.mode = Mode.remind ∧
        (finish_remind_add st).2 = []) ∧
    ((parseHM (pstrip st.input_buf)).isSome → pstrip st.input_buf ∈ st.sched →
      (finish_remind_add st).1.sched = st.sched ∧
        (finish_remind_add st).1.status =
          pstrip st.input_buf ++ " already exists" ∧
        (finish_remind_add st).1.mode = Mode.remind ∧
        (finish_remind_add st).2 = []) ∧
    ((parseHM (pstrip st.input_buf)).isSome → pstrip st.input_buf ∉ st.sched →
      (finish_remind_add st).1.sched =
          (st.sched ++ [pstrip st.input_buf]).insertionSort pyStrLe ∧
        (finish_remind_add st).1.sched.Pairwise pyStrLe ∧
        pstrip st.input_buf ∈ (finish_remind_add st).1.sched ∧
        (finish_remind_add st).1.mode = Mode.remind ∧
        (finish_remind_add st).2 = [Eff.saveSchedule] ∧
        (finish_remind_add st).1.status =
          "Reminder set:  " ++ pstrip st.input_buf) ∧
    ((finish_remind_add (remindAddSt [] "09:00")).1.sched = ["09:00"] ∧
      (finish_remind_add (remindAddSt ["09:00"] "07:30")).1.sched =
        ["07:30", "09:00"] ∧
      (finish_remind_add (remindAddSt ["07:30", "09:00"] "09:00")).1.sched =
        ["07:30", "09:00"] ∧
      (finish_remind_add (remindAddSt ["07:30", "09:00"] "09:00")).1.status =
        "09:00 already exists") := by
  refine ⟨?_, ?_, ?_, by decide, by decide, by decide, by decide⟩
  · intro hn
    simp [finish_remind_add, hn]
  · intro hs hmem
    obtain ⟨hm, hhm⟩ := Option.isSome_iff_exists.mp hs
    simp [finish_remind_add, hhm, hmem]
  · intro hs hmem
    obtain ⟨hm, hhm⟩ := Option.isSome_iff_exists.mp hs
    refine ⟨?_, ?_, ?_, ?_, ?_, ?_⟩
    · simp [finish_remind_add, hhm, if_pos hmem]
    · simp only [finish_remind_add, hhm, if_pos hmem]
      exact List.sorted_insertionSort _ _
    · simp [finish_remind_add, hhm, if_pos hmem, List.mem_insertionSort]
    · simp [finish_remind_add, hhm, if_pos hmem]
    · simp [finish_remind_add, hhm, if_pos hmem]
    · simp [finish_remind_add, hhm, if_pos hmem]

/-- Witness for C3 amended: adding "07:30" to the schedule ["09:00"]
goes through the insert branch: persisted, re-sorted, back to the
reminder list. -/
theorem c3_finish_remind_add_amended_witness :
    (finish_remind_add (remindAddSt ["09:00"] "07:30")).1.mode =
        Mode.remind ∧
    (finish_remind_add (remindAddSt ["09:00"] "07:30")).2 =
        [Eff.saveSchedule] ∧
    "07:30" ∈ (finish_remind_add (remindAddSt ["09:00"] "07:30")).1.sched := by
  have h := (c3_finish_remind_add_amended (remindAddSt ["09:00"] "07:30")).2.2.1
    (by decide) (by decide)
  exact ⟨h.2.2.2.1, h.2.2.2.2.1, by simpa using h.2.2.1⟩

/-! ## Claim about multi-step event creation (C6) -/

/-- Time-of-day in minutes of an event's time field; timeless (or
non-parsing) times sort after every valid time here. -/
def todMinutes (e : Ev) : Nat :=
  match parseHM e.time with
  | some hm => hm.1 * 60 + hm.2
  | none => 1440

/-- Calendar browse mode on 2024-03-05. -/
def calSt : AppState :=
  { initState ⟨[], []⟩ [] [] [] 2024 3 5 with tab := 1, mode := .cal_browse }

/-- Drive one complete event-creation sub-flow: enter the title, the
time, and the notes, completing each step. -/
def runEvFlow (st : AppState) (title time notes : String) : AppState :=
  let s1 := (finish_ev_title {st with input_buf := title}).1
  let s2 := (finish_ev_time {s1 with input_buf := time}).1
  (finish_ev_notes {s2 with input_buf := notes}).1

/-- C6 counterexample: "9:00" is a *valid* time for the flow's
validator (CPython strptime accepts non-zero-padded hours), but the
commit sorts by the literal time string, so an event at 9:00 is stored
*after* one at 14:00 — the stored sequence is not sorted by time-of-day
ascending. -/
theorem c6_counterexample :
    parseHM "9:00" = some (9, 0) ∧
    dlookup "2024-03-05"
        (runEvFlow (runEvFlow calSt "A" "9:00" "") "B" "14:00" "").events =
      some [Ev.mk "B" "14:00" "", Ev.mk "A" "9:00" ""] ∧
    ¬ ((dlookup "2024-03-05"
        (runEvFlow (runEvFlow calSt "A" "9:00" "") "B" "14:00" "").events).getD
          []).Pairwise (fun e f => todMinutes e ≤ todMinutes f) := by
  refine ⟨by decide, by decide, by decide⟩

/-- C6 amended: the record is committed only at the final (notes) step
and only when the trimmed title is non-empty (an empty title discards
the sub-flow without touching the Event collection); an invalid time
mid-flow clears the time field and continues; after a commit the stored
sequence for the date is the stable sort of the previous sequence plus
the new record, ascending by the *literal time string* (empty mapped to
"99:99") — which coincides with time-of-day ascending with timeless
events last whenever all stored times are zero-padded HH:MM, as in the
Doctor/Standup example, but not for accepted non-padded times such as
"9:00". -/
theorem c6_event_commit_amended :
    (∀ st : AppState,
      (finish_ev_title st).1.events = st.events ∧
      (finish_ev_title st).2 = [] ∧
      (finish_ev_title st).1.mode = Mode.event_add_time ∧
      (finish_ev_title st).1.ev_title = pstrip st.input_buf) ∧
    (∀ st : AppState,
      (finish_ev_time st).1.events = st.events ∧
      (finish_ev_time st).2 = [] ∧
      (finish_ev_time st).1.mode = Mode.event_add_notes ∧
      (pstrip st.input_buf ≠ "" → parseHM (pstrip st.input_buf) = none →
        (finish_ev_time st).1.ev_time = "" ∧
        (finish_ev_time st).1.status = "Invalid time, skipped")) ∧
    (∀ st : AppState, st.ev_title = "" →
      (finish_ev_notes st).1.events = st.events ∧
      (finish_ev_notes st).2 = [] ∧
      (finish_ev_notes st).1.mode = Mode.cal_browse) ∧
    (∀ (st : AppState) (ds : String),
      st.ev_title ≠ "" → cal_date_str st = some ds →
      dlookup ds (finish_ev_notes st).1.events =
        some (((dlookup ds st.events).getD [] ++
          [Ev.mk st.ev_title st.ev_time (pstrip st.input_buf)]).insertionSort
            evLe) ∧
      (((dlookup ds st.events).getD [] ++
          [Ev.mk st.ev_title st.ev_time (pstrip st.input_buf)]).insertionSort
            evLe).Pairwise evLe ∧
      (finish_ev_notes st).2 = [Eff.saveEvents] ∧
      (finish_ev_notes st).1.mode = Mode.cal_browse) ∧
    dlookup "2024-03-05"
        (runEvFlow (runEvFlow calSt "Doctor" "14:00" "bring forms")
          "Standup" "09:00" "").events =
      some [Ev.mk "Standup" "09:00" "",
            Ev.mk "Doctor" "14:00" "bring forms"] := by
  refine ⟨?_, ?_, ?_, ?_, by decide⟩
  · intro st
    refine ⟨rfl, rfl, rfl, rfl⟩
  · intro st
    refine ⟨?_, ?_, ?_, ?_⟩
    · simp only [finish_ev_time]
      split
      · split
        · rfl
        · rfl
      · rfl
    · simp only [finish_ev_time]
      split
      · split
        · rfl
        · rfl
      · rfl
    · simp only [finish_ev_time]
      split
      · split
        · rfl
        · rfl
      · rfl
    · intro hne hbad
      simp [finish_ev_time, if_pos hne, hbad]
  · intro st h0
    simp [finish_ev_notes, h0]
  · intro st ds hne hds
    refine ⟨?_, ?_, ?_, ?_⟩
    · simp only [finish_ev_notes, if_pos hne, hds]
      exact dlookup_dupsert_self _ _ _
    · exact List.sorted_insertionSort _ _
    · simp [finish_ev_notes, if_pos hne, hds]
    · simp [finish_ev_notes, if_pos hne, hds]

/-- The state right before the Doctor event's notes-step completion. -/
def doctorNotesSt : AppState :=
  { (finish_ev_time
      { (finish_ev_title { calSt with input_buf := "Doctor" }).1 with
          input_buf := "14:00" }).1 with
      input_buf := "bring forms" }

/-- Witness for C6 amended: completing the notes step with a non-empty
title commits and persists the event. -/
theorem c6_event_commit_amended_witness :
    dlookup "2024-03-05" (finish_ev_notes doctorNotesSt).1.events =
      some [Ev.mk "Doctor" "14:00" "bring forms"] ∧
    (finish_ev_notes doctorNotesSt).2 = [Eff.saveEvents] := by
  have h := c6_event_commit_amended.2.2.2.1 doctorNotesSt "2024-03-05"
    (by decide) (by decide)
  refine ⟨?_, h.2.2.1⟩
  rw [h.1]
  decide

/-! ## Claim about the event-list cursor (C10)

`self.ev_cursor` is written exactly twice in the source: initialized to
0 in `__init__` and set to `max(0, self.ev_cursor - 1)` in
`_delete_event`.  No handler ever increases it, so it is 0 in every
reachable state and `_delete_event` always removes the first event. -/

theorem toggle_habit_ev_cursor (st : AppState) (c : Clock) :
    (toggle_habit st c).1.ev_cursor = st.ev_cursor := by
  simp only [toggle_habit]
  split
  · rfl
  · rfl

theorem finish_add_ev_cursor (st : AppState) :
    (finish_add st).1.ev_cursor = st.ev_cursor := by
  simp only [finish_add]
  repeat' split
  all_goals rfl

theorem h_del_confirm_ev_cursor (st : AppState) (key : Int) :
    (h_del_confirm st key).1.ev_cursor = st.ev_cursor := by
  simp only [h_del_confirm]
  repeat' split
  all_goals rfl

theorem h_remind_nav_ev_cursor (st : AppState) (key : Int) :
    (h_remind_nav st key).1.ev_cursor = st.ev_cursor := by
  simp only [h_remind_nav]
  repeat' split
  all_goals rfl

theorem finish_remind_add_ev_cursor (st : AppState) :
    (finish_remind_add st).1.ev_cursor = st.ev_cursor := by
  simp only [finish_remind_add]
  repeat' split
  all_goals rfl

theorem h_text_input_ev_cursor (st : AppState) (key : Int)
    (on_enter : AppState → AppState × List Eff)
    (h : (on_enter st).1.ev_cursor = st.ev_cursor) :
    (h_text_input st key on_enter).1.ev_cursor = st.ev_cursor := by
  simp only [h_text_input]
  repeat' split
  all_goals (first | rfl | exact h)

theorem h_main_ev_cursor (st : AppState) (key : Int) (c : Clock) :
    (h_main st key c).1.ev_cursor = st.ev_cursor := by
  simp only [h_main]
  repeat' split
  all_goals (first | rfl | exact toggle_habit_ev_cursor st c)

theorem cal_next_ev_cursor (st : AppState) :
    (cal_next st).ev_cursor = st.ev_cursor := by
  simp only [cal_next]
  split
  · rfl
  · rfl

theorem cal_prev_ev_cursor (st : AppState) :
    (cal_prev st).ev_cursor = st.ev_cursor := by
  simp only [cal_prev]
  split
  · rfl
  · rfl

theorem delete_event_ev_cursor_le (st : AppState) :
    (delete_event st).1.ev_cursor ≤ st.ev_cursor := by
  simp only [delete_event]
  repeat' split
  all_goals (first | exact Nat.le_refl _ | exact Nat.sub_le _ _)

theorem finish_ev_title_ev_cursor (st : AppState) :
    (finish_ev_title st).1.ev_cursor = st.ev_cursor := rfl

theorem finish_ev_time_ev_cursor (st : AppState) :
    (finish_ev_time st).1.ev_cursor = st.ev_cursor := by
  simp only [finish_ev_time]
  repeat' split
  all_goals rfl

theorem finish_ev_notes_ev_cursor (st : AppState) :
    (finish_ev_notes st).1.ev_cursor = st.ev_cursor := by
  simp only [finish_ev_notes]
  repeat' split
  all_goals rfl

theorem save_journal_ev_cursor (st : AppState) (c : Clock) :
    (save_journal st c).1.ev_cursor = st.ev_cursor := by
  simp only [save_journal]
  repeat' split
  all_goals rfl

theorem h_journal_edit_ev_cursor (st : AppState) (key : Int) (c : Clock) :
    (h_journal_edit st key c).1.ev_cursor = st.ev_cursor := by
  simp only [h_journal_edit]
  repeat' split
  all_goals (first | rfl | exact save_journal_ev_cursor st c)

theorem h_cal_browse_ev_cursor_le (st : AppState) (key : Int) (c : Clock) :
    (h_cal_browse st key c).1.ev_cursor ≤ st.ev_cursor := by
  unfold h_cal_browse
  by_cases h1 : key = 113 ∨ key = 81
  · rw [if_pos h1]
  · rw [if_neg h1]
    by_cases h2 : key = KEY_RIGHT
    · rw [if_pos h2]
      by_cases h2b : st.cal_cursor < daysInMonth st.cal_year st.cal_month - 1
      · rw [if_pos h2b]
      · rw [if_neg h2b]
        exact le_of_eq (cal_next_ev_cursor st)
    · rw [if_neg h2]
      by_cases h3 : key = KEY_LEFT
      · rw [if_pos h3]
        by_cases h3b : st.cal_cursor > 0
        · rw [if_pos h3b]
        · rw [if_neg h3b]
          exact le_of_eq (cal_prev_ev_cursor st)
      · rw [if_neg h3]
        by_cases h4 : key = KEY_DOWN
        · rw [if_pos h4]
        · rw [if_neg h4]
          by_cases h5 : key = KEY_UP
          · rw [if_pos h5]
          · rw [if_neg h5]
            by_cases h6 : key = 93
            · rw [if_pos h6]
              exact le_of_eq (cal_next_ev_cursor st)
            · rw [if_neg h6]
              by_cases h7 : key = 91
              · rw [if_pos h7]
                exact le_of_eq (cal_prev_ev_cursor st)
              · rw [if_neg h7]
                by_cases h8 : key = 110 ∨ key = 78
                · rw [if_pos h8]
                · rw [if_neg h8]
                  by_cases h9 : key = 120 ∨ key = 88
                  · rw [if_pos h9]
                    exact delete_event_ev_cursor_le st
                  · rw [if_neg h9]
                    by_cases h10 : key = 101 ∨ key = 69
                    · rw [if_pos h10]
                    · rw [if_neg h10]
                      by_cases h11 : key = 106 ∨ key = 74
                      · rw [if_pos h11]
                      · rw [if_neg h11]
                        by_cases h12 : key = 119 ∨ key = 87
                        · rw [if_pos h12]
                        · rw [if_neg h12]

theorem handle_habits_ev_cursor (st : AppState) (key : Int) (c : Clock) :
    (handle_habits st key c).1.ev_cursor = st.ev_cursor := by
  unfold handle_habits
  split
  · exact h_main_ev_cursor st key c
  · exact h_text_input_ev_cursor st key _ (finish_add_ev_cursor st)
  · exact h_del_confirm_ev_cursor st key
  · exact h_remind_nav_ev_cursor st key
  · exact h_text_input_ev_cursor st key _ (finish_remind_add_ev_cursor st)
  · rfl

theorem handle_calendar_ev_cursor_le (st : AppState) (key : Int) (c : Clock) :
    (handle_calendar st key c).1.ev_cursor ≤ st.ev_cursor := by
  unfold handle_calendar
  split
  · exact h_cal_browse_ev_cursor_le st key c
  · exact le_of_eq
      (h_text_input_ev_cursor st key _ (finish_ev_title_ev_cursor st))
  · exact le_of_eq
      (h_text_input_ev_cursor st key _ (finish_ev_time_ev_cursor st))
  · exact le_of_eq
      (h_text_input_ev_cursor st key _ (finish_ev_notes_ev_cursor st))
  · exact le_of_eq (h_journal_edit_ev_cursor st key c)
  · exact Nat.le_refl _

theorem handle_ev_cursor_le (st : AppState) (key : Int) (c : Clock) :
    (handle st key c).1.ev_cursor ≤ st.ev_cursor := by
  unfold handle
  split
  · exact Nat.le_refl _
  · split
    · exact le_of_eq (handle_habits_ev_cursor st key c)
    · exact handle_calendar_ev_cursor_le st key c

theorem reachable_ev_cursor_zero {st : AppState} (h : Reachable st) :
    st.ev_cursor = 0 := by
  induction h with
  | init data sched events journal y m day => rfl
  | step st key c hst ih =>
      have := handle_ev_cursor_le st key c
      omega

/-- C10: in every reachable state the event-list cursor is 0 (it is
initialized to 0, never increased, and `max(0, cursor-1)` keeps it at
0), so deleting an event always removes the first event of the selected
date's (sorted) sequence: afterwards the stored sequence is the old
one's tail (the date's entry disappearing when that tail is empty), and
the status names the first event's title. -/
theorem c10_ev_cursor_zero_delete_first :
    ∀ st : AppState, Reachable st →
      st.ev_cursor = 0 ∧
      (∀ (ds : String) (evs : List Ev), cal_date_str st = some ds →
        dlookup ds st.events = some evs → evs ≠ [] →
        dlookup ds (delete_event st).1.events =
          (if evs.drop 1 = [] then none else some (evs.drop 1)) ∧
        (delete_event st).1.status =
          "Deleted:  " ++ (evs.getD 0 (Ev.mk "" "" "")).title) := by
  intro st h
  have h0 := reachable_ev_cursor_zero h
  refine ⟨h0, ?_⟩
  intro ds evs hds hevs hne
  cases evs with
  | nil => exact absurd rfl hne
  | cons e0 erest =>
      simp only [delete_event, hds, hevs, Option.getD_some]
      rw [if_neg (by simp : ¬ (e0 :: erest = [])), h0]
      rw [if_pos (by simp : 0 < (e0 :: erest).length)]
      simp only [List.eraseIdx_cons_zero, List.getD_cons_zero,
        List.drop_succ_cons, List.drop_zero]
      by_cases he : erest = []
      · simp [he, dlookup_derase_self]
      · simp [he, dlookup_dupsert_self]

/-- An initial state whose selected date 2024-03-05 has two events. -/
def twoEvInitSt : AppState :=
  initState ⟨[], []⟩ []
    [("2024-03-05", [Ev.mk "A" "09:00" "", Ev.mk "B" "14:00" ""])] []
    2024 3 5

/-- Witness for C10 at a concrete initial state: the cursor is 0 and
deleting removes the first event A, leaving [B]. -/
theorem c10_ev_cursor_zero_delete_first_witness :
    twoEvInitSt.ev_cursor = 0 ∧
    dlookup "2024-03-05" (delete_event twoEvInitSt).1.events =
      some [Ev.mk "B" "14:00" ""] := by
  have h := c10_ev_cursor_zero_delete_first twoEvInitSt
    (Reachable.init _ _ _ _ _ _ _)
  refine ⟨h.1, ?_⟩
  have h2 := (h.2 "2024-03-05" [Ev.mk "A" "09:00" "", Ev.mk "B" "14:00" ""]
    (by decide) (by decide) (by decide)).1
  rw [h2]
  decide

end Acedia
